import Mathlib

/-!
A verification development for `PollReader.py`: a shallow embedding of the
poll-record store and its three aggregate queries, followed by theorems
settling the specification's claims.

Python floats are modelled as exact rationals (`ℚ`); Python strings as
`String`; the mutable dictionary of six parallel lists as the `Store`
structure.  Exceptions raised while building (`int()` / `float()` failures
and the out-of-range index on an empty sample descriptor) are modelled with
`Except`: an aborted build returns no store, which matches the observable
behaviour of the source, where a raised exception propagates out of
`build_data_dict` and the partially mutated dictionary is never consulted.
-/

namespace PollReader

/-! ### String primitives (models of Python `str.strip`, `str.split`, `str.lower`) -/

/-- Python `str.strip()`: remove leading and trailing whitespace. -/
def pyStrip (cs : List Char) : List Char :=
  ((cs.dropWhile Char.isWhitespace).reverse.dropWhile Char.isWhitespace).reverse

/-- Split a character list at every separator character satisfying `p`,
keeping empty groups, as Python `str.split(',')` does. -/
def splitPred (p : Char → Bool) : List Char → List (List Char)
  | [] => [[]]
  | c :: cs =>
    let r := splitPred p cs
    if p c then [] :: r
    else
      match r with
      | [] => [[c]]
      | g :: gs => (c :: g) :: gs

/-- Python `str.strip()` on `String`. -/
def pyStripStr (s : String) : String := ⟨pyStrip s.data⟩

/-- Python `s.split(',')`: split on commas, keeping empty fields. -/
def pySplitComma (s : String) : List String :=
  (splitPred (fun c => c = ',') s.data).map (fun g => ⟨g⟩)

/-- Python `s.split()` (no argument): split on whitespace runs, dropping
empty tokens. -/
def pySplitWS (s : String) : List String :=
  ((splitPred Char.isWhitespace s.data).filter (fun g => g ≠ [])).map (fun g => ⟨g⟩)

/-- Python `s.lower()` (ASCII case folding suffices for the stored labels). -/
def pyLower (s : String) : String := ⟨s.data.map Char.toLower⟩

/-! ### Numeric literal parsing (models of Python `int()` and `float()`
on the decimal strings the poll feed contains: an optional sign, digits,
and for `float()` an optional decimal point) -/

def allDigits (cs : List Char) : Bool := cs.all (fun c => c.isDigit)

def natOfDigits (cs : List Char) : Nat :=
  cs.foldl (fun a c => 10 * a + (c.toNat - 48)) 0

def pyIntChars : List Char → Option Int
  | [] => none
  | c :: rest =>
    if c = '-' then
      if rest ≠ [] ∧ allDigits rest then some (-(natOfDigits rest : Int)) else none
    else if c = '+' then
      if rest ≠ [] ∧ allDigits rest then some ((natOfDigits rest : Int)) else none
    else
      if allDigits (c :: rest) then some ((natOfDigits (c :: rest) : Int)) else none

/-- Python `int(s)`: strips whitespace, then parses an optionally signed
decimal integer; `none` models the `ValueError`. -/
def pyInt (s : String) : Option Int := pyIntChars (pyStrip s.data)

/-- Unsigned part of a `float()` literal: digits with an optional single
decimal point, at least one digit overall. -/
def pyFloatCore (cs : List Char) : Option ℚ :=
  let ip := cs.takeWhile (fun c => c ≠ '.')
  match cs.dropWhile (fun c => c ≠ '.') with
  | [] => if ip ≠ [] ∧ allDigits ip then some ((natOfDigits ip : ℚ)) else none
  | _ :: fp =>
    if allDigits ip ∧ allDigits fp ∧ (ip ≠ [] ∨ fp ≠ []) then
      some ((natOfDigits ip : ℚ) + (natOfDigits fp : ℚ) / ((10 : ℚ) ^ fp.length))
    else none

def pyFloatChars : List Char → Option ℚ
  | [] => none
  | c :: rest =>
    if c = '-' then (pyFloatCore rest).map (fun q => -q)
    else if c = '+' then pyFloatCore rest
    else pyFloatCore (c :: rest)

/-- Python `float(s)` on decimal notation; `none` models the `ValueError`. -/
def pyFloat (s : String) : Option ℚ := pyFloatChars (pyStrip s.data)

/-! ### The data dictionary and the build step -/

/-- The six parallel column lists of `self.data_dict`. -/
structure Store where
  month : List String
  date : List Int
  sample : List Int
  sampleType : List String
  harris : List ℚ
  trump : List ℚ
deriving DecidableEq, Repr

/-- The dictionary as initialised in `__init__`: six empty lists. -/
def emptyStore : Store := ⟨[], [], [], [], [], []⟩

/-- Total record count of a store (the spec's "total record count"). -/
def count (st : Store) : Nat := st.month.length

/-- Well-formedness: the six column lists have equal length. -/
def WF (st : Store) : Prop :=
  st.date.length = st.month.length ∧ st.sample.length = st.month.length ∧
  st.sampleType.length = st.month.length ∧ st.harris.length = st.month.length ∧
  st.trump.length = st.month.length

instance (st : Store) : Decidable (WF st) := by unfold WF; infer_instance

/-- The exceptions that can escape `build_data_dict`: `ValueError` from
`int()` / `float()`, and the `IndexError` raised by `sample_parts[0]` when
the sample descriptor field is empty. -/
inductive BuildError where
  | malformedInt (s : String)
  | malformedFloat (s : String)
  | indexError
deriving DecidableEq, Repr

/-- Source `_to_fraction` after the `float()` call: values above `1.0` are divided
by `100`, others kept. -/
def to_fraction (v : ℚ) : ℚ := if v > 1 then v / 100 else v

/-- The trimmed field list `[x.strip() for x in row.strip().split(',')]`. -/
def pyFields (row : String) : List String :=
  (pySplitComma (pyStripStr row)).map pyStripStr

/-- The sample-descriptor branch of `build_data_dict`: from the whitespace
tokens of field 2, produce `(sample_size, sample_type)` where `sample_type`
is the intermediate label (`'LV'`, `'RV'` or `'Unknown'`). -/
def sampleOf (parts : List String) : Except BuildError (Int × String) :=
  if parts.length = 2 then
    match pyInt (parts.getD 0 "") with
    | none => .error (.malformedInt (parts.getD 0 ""))
    | some sz =>
      .ok (sz, if (parts.getD 1 "") ∈ (["LV", "RV"] : List String)
               then parts.getD 1 "" else "Unknown")
  else
    match parts with
    | [] => .error .indexError
    | p :: _ =>
      match pyInt p with
      | none => .error (.malformedInt p)
      | some sz => .ok (sz, "Unknown")

/-- One iteration of the loop body of `build_data_dict` on a non-header
row: skip the row if it has fewer than five trimmed fields, otherwise parse
its fields and append one value to each column.  The source appends to the
columns one by one; since a raised exception aborts the whole build and
discards the store, appending the whole record at once is observationally
the same. -/
def processRow (st : Store) (row : String) : Except BuildError Store :=
  let separated := pyFields row
  if separated.length < 5 then .ok st
  else
    match pyInt (separated.getD 1 "") with
    | none => .error (.malformedInt (separated.getD 1 ""))
    | some date =>
      match sampleOf (pySplitWS (separated.getD 2 "")) with
      | .error e => .error e
      | .ok (sample_size, sample_type) =>
        match pyFloat (separated.getD 3 "") with
        | none => .error (.malformedFloat (separated.getD 3 ""))
        | some hv =>
          match pyFloat (separated.getD 4 "") with
          | none => .error (.malformedFloat (separated.getD 4 ""))
          | some tv =>
            .ok { month := st.month ++ [separated.getD 0 ""]
                , date := st.date ++ [date]
                , sample := st.sample ++ [sample_size]
                , sampleType := st.sampleType ++
                    [if sample_type = "LV" then "likely voters" else "registered voters"]
                , harris := st.harris ++ [to_fraction hv]
                , trump := st.trump ++ [to_fraction tv] }

/-- Source `build_data_dict` on the raw lines: the row at index 0 is skipped as
the header (`if idx == 0: continue`), every later row goes through the loop
body; the first exception aborts the build. -/
def build_data_dict (raw : List String) : Except BuildError Store :=
  (raw.drop 1).foldlM processRow emptyStore

/-! ### The three aggregate queries -/

/-- Python `max(l) if l else 0.0`. -/
def pyMax (l : List ℚ) : ℚ :=
  match l with
  | [] => 0
  | x :: xs => xs.foldl max x

/-- Rendering of `f"{q:.1f}"`: the value rounded to one decimal place.
(Rationals stand in for IEEE doubles; rounding of exact ties is immaterial
to the claims.) -/
def fmtPct1 (q : ℚ) : String :=
  let m : Int := round (q * 10)
  let a := m.natAbs
  (if m < 0 then "-" else "") ++ toString (a / 10) ++ "." ++ toString (a % 10)

/-- Source `highest_polling_candidate`. -/
def highest_polling_candidate (st : Store) : String :=
  let max_harris := pyMax st.harris
  let max_trump := pyMax st.trump
  if max_harris > max_trump then "Harris " ++ fmtPct1 (max_harris * 100) ++ "%"
  else if max_trump > max_harris then "Trump " ++ fmtPct1 (max_trump * 100) ++ "%"
  else "EVEN " ++ fmtPct1 (max_harris * 100) ++ "%"

/-- Python `sum(l) / len(l) if l else 0.0`: the arithmetic mean with the
empty-list convention used throughout the source. -/
def listAvg (l : List ℚ) : ℚ := if l = [] then 0 else l.sum / (l.length : ℚ)

/-- The filtering loop of `likely_voter_polling_average`: walk the three
parallel columns, keeping the result pairs whose sample-type label lowers
to `'likely voters'`.  (The source indexes `harris`/`trump` at the position
of the sample-type entry; on the equal-length columns of a built store this
is the same parallel walk.) -/
def collectLikely : List String → List ℚ → List ℚ → List ℚ × List ℚ
  | stype :: ss, h :: hs, t :: ts =>
    let rest := collectLikely ss hs ts
    if pyLower stype = "likely voters" then (h :: rest.1, t :: rest.2) else rest
  | _, _, _ => ([], [])

/-- Source `likely_voter_polling_average`. -/
def likely_voter_polling_average (st : Store) : ℚ × ℚ :=
  let c := collectLikely st.sampleType st.harris st.trump
  (listAvg c.1, listAvg c.2)

/-- Python `l[-n:]` for `n ≥ 1`, `n ≤ len(l)`: the last `n` elements. -/
def lastN (n : Nat) (l : List ℚ) : List ℚ := l.drop (l.length - n)

/-- Source `polling_history_change`, including the duplicated block of the source:
the first block's bindings are computed and then shadowed by the identical
second block, exactly as in the Python text. -/
def polling_history_change (st : Store) : ℚ × ℚ :=
  let harris := st.harris
  let trump := st.trump
  let n := min 30 (min harris.length trump.length)
  if n = 0 then (0, 0)
  else
    let harris_early_avg := (harris.take n).sum / (n : ℚ)
    let trump_early_avg := (trump.take n).sum / (n : ℚ)
    let harris_late_avg := (lastN n harris).sum / (n : ℚ)
    let trump_late_avg := (lastN n trump).sum / (n : ℚ)
    let harris := st.harris
    let trump := st.trump
    let n := min 30 (min harris.length trump.length)
    if n = 0 then (0, 0)
    else
      let harris_early_avg := (harris.take n).sum / (n : ℚ)
      let trump_early_avg := (trump.take n).sum / (n : ℚ)
      let harris_late_avg := (lastN n harris).sum / (n : ℚ)
      let trump_late_avg := (lastN n trump).sum / (n : ℚ)
      (harris_early_avg - harris_late_avg, trump_early_avg - trump_late_avg)

/-- Source `polling_history_change` with the duplicated block removed: `n` and the
four window averages are computed once. -/
def polling_history_change_simplified (st : Store) : ℚ × ℚ :=
  let harris := st.harris
  let trump := st.trump
  let n := min 30 (min harris.length trump.length)
  if n = 0 then (0, 0)
  else
    let harris_early_avg := (harris.take n).sum / (n : ℚ)
    let trump_early_avg := (trump.take n).sum / (n : ℚ)
    let harris_late_avg := (lastN n harris).sum / (n : ℚ)
    let trump_late_avg := (lastN n trump).sum / (n : ℚ)
    (harris_early_avg - harris_late_avg, trump_early_avg - trump_late_avg)

instance {ε α : Type} [DecidableEq ε] [DecidableEq α] : DecidableEq (Except ε α) := fun x y =>
  match x, y with
  | .ok a, .ok b => if h : a = b then .isTrue (by rw [h]) else .isFalse (by simp [h])
  | .error a, .error b => if h : a = b then .isTrue (by rw [h]) else .isFalse (by simp [h])
  | .ok _, .error _ => .isFalse (by simp)
  | .error _, .ok _ => .isFalse (by simp)

/-! ### Specification-side definitions (written from the spec's words, to be
compared with the embedded code) -/

/-- Spec §4.2: "compute max over each candidate's full result sequence
independently (empty sequence → 0.0 by convention)". -/
def specMax (l : List ℚ) : ℚ := (l.max?).getD 0

/-- Spec §4.2, the whole query: compare the two column maxima, the higher
candidate wins and the tied case yields `EVEN`, each with the winning value
times 100 rendered to one decimal place. -/
def spec_highest (st : Store) : String :=
  let mH := specMax st.harris
  let mT := specMax st.trump
  if mT < mH then "Harris " ++ fmtPct1 (mH * 100) ++ "%"
  else if mH < mT then "Trump " ++ fmtPct1 (mT * 100) ++ "%"
  else "EVEN " ++ fmtPct1 (mH * 100) ++ "%"

/-- Spec §4.3: "filter both result columns by the parallel sample-type
column, then arithmetic mean of each filtered subset; empty subset → 0.0". -/
def spec_likely (st : Store) : ℚ × ℚ :=
  let kept := (st.sampleType.zip (st.harris.zip st.trump)).filter
    (fun p => pyLower p.1 = "likely voters")
  (listAvg (kept.map (fun p => p.2.1)), listAvg (kept.map (fun p => p.2.2)))

/-! ### Row-level predicates used as hypotheses of the amended invariants -/

/-- Both result fields of the row, where they parse at all, denote values
in `[0, 100]` (fractional or percentage notation). -/
def rowResBounded (row : String) : Bool :=
  (match pyFloat ((pyFields row).getD 3 "") with
   | some v => decide (0 ≤ v ∧ v ≤ 100)
   | none => true) &&
  (match pyFloat ((pyFields row).getD 4 "") with
   | some v => decide (0 ≤ v ∧ v ≤ 100)
   | none => true)

/-- The string does not start (after stripping) with a minus sign. -/
def tokNoMinus (s : String) : Bool :=
  match pyStrip s.data with
  | '-' :: _ => false
  | _ => true

/-- The sample-size token of the row carries no minus sign. -/
def rowSampleNoMinus (row : String) : Bool :=
  let sep := pyFields row
  if sep.length < 5 then true
  else tokNoMinus ((pySplitWS (sep.getD 2 "")).getD 0 "")

/-! ### Concrete inputs used by the closed theorems -/

/-- The spec's end-to-end dataset: a header plus three rows. -/
def demoRaw : List String :=
  ["month,day,sample,Harris result,Trump result",
   "Oct,1,1000 LV,55,45",
   "Oct,2,1000 RV,50,50",
   "Oct,3,900 XX,57.0,52"]

/-- A one-record dataset whose result values are the fractions `1` and `0`. -/
def demo2Raw : List String := ["month,day,sample,Harris,Trump", "Oct,1,1000 LV,1,0"]

/-- The store `demo2Raw` builds to. -/
def demo2Store : Store := ⟨["Oct"], [1], [1000], ["likely voters"], [1], [0]⟩

/-- A row with a negative Harris result value. -/
def cexRaw5 : List String := ["month,day,sample,Harris,Trump", "Oct,1,1000 LV,-5,0"]

/-- The store `cexRaw5` builds to: its Harris fraction is `-5 ∉ [0,1]`. -/
def cexStore5 : Store := ⟨["Oct"], [1], [1000], ["likely voters"], [-5], [0]⟩

/-- A row with a negative sample-size token. -/
def cexRaw6 : List String := ["month,day,sample,Harris,Trump", "Oct,1,-10 LV,1,0"]

/-- The store `cexRaw6` builds to: its sample size is `-10 < 0`. -/
def cexStore6 : Store := ⟨["Oct"], [1], [-10], ["likely voters"], [1], [0]⟩

/-- A store with fractional entries, used to instantiate universally
quantified theorems (its shape matches what `demoRaw` builds to). -/
def demoStore : Store :=
  ⟨["Oct", "Oct", "Oct"], [1, 2, 3], [1000, 1000, 900],
   ["likely voters", "registered voters", "registered voters"],
   [11/20, 1/2, 57/100], [9/20, 1/2, 13/25]⟩

/-! ### Theorems -/

theorem pyMax_eq_specMax (l : List ℚ) : pyMax l = specMax l := by
  cases l <;> rfl

/-- C1: the spec requires the stored sample type of a record whose second
descriptor token is neither `"LV"` nor `"RV"` to be `unknown`; the code's
final mapping (`'likely voters' if sample_type == 'LV' else 'registered
voters'`) discards the intermediate `'Unknown'` label, so the spec's
end-to-end dataset stores `registered voters` for the `"900 XX"` row where
the spec demands `unknown`. -/
theorem sample_type_three_labels_bug :
    (build_data_dict demoRaw).map Store.sampleType
      = .ok ["likely voters", "registered voters", "registered voters"]
    ∧ ("registered voters" : String) ≠ "unknown" := by
  exact ⟨by decide, by decide⟩

/-- C2: `highest_polling_candidate` agrees, on every store, with the spec's
description: each candidate's column maximum is taken with the empty-column
convention `0.0`, the strictly larger maximum names the winner in the format
`"<Name> <percentage>%"` with one decimal place, and an exact tie yields
`"EVEN <percentage>%"`; being a total function it never fails. -/
theorem highest_polling_candidate_correct (st : Store) :
    highest_polling_candidate st = spec_highest st := by
  unfold highest_polling_candidate spec_highest
  rw [pyMax_eq_specMax, pyMax_eq_specMax]

/-- C10: `polling_history_change`, whose source computes `n` and the four
window averages twice in two identical blocks, returns exactly what the
simplified single-block version returns: the duplicated first block has no
effect on the result. -/
theorem polling_history_change_dedup (st : Store) :
    polling_history_change st = polling_history_change_simplified st := by
  unfold polling_history_change polling_history_change_simplified
  by_cases h : min 30 (min st.harris.length st.trump.length) = 0 <;> simp [h]

theorem phc_eq_simplified (st : Store) :
    polling_history_change st = polling_history_change_simplified st := by
  unfold polling_history_change polling_history_change_simplified
  by_cases h : min 30 (min st.harris.length st.trump.length) = 0 <;> simp [h]

theorem listAvg_take (l : List ℚ) (n : Nat) (hn : n ≠ 0) (hle : n ≤ l.length) :
    listAvg (l.take n) = (l.take n).sum / (n : ℚ) := by
  have hlen : (l.take n).length = n := by
    rw [List.length_take]; omega
  unfold listAvg
  rw [if_neg (by intro hnil; rw [hnil] at hlen; simp at hlen; omega), hlen]

theorem listAvg_lastN (l : List ℚ) (n : Nat) (hn : n ≠ 0) (hle : n ≤ l.length) :
    listAvg (lastN n l) = (lastN n l).sum / (n : ℚ) := by
  have hlen : (lastN n l).length = n := by
    unfold lastN; rw [List.length_drop]; omega
  unfold listAvg
  rw [if_neg (by intro hnil; rw [hnil] at hlen; simp at hlen; omega), hlen]

/-- C3: on every built store, `polling_history_change` returns, for each
candidate, the arithmetic mean of the first `n` results minus the
arithmetic mean of the last `n` results in insertion order, where
`n = min(30, total record count)`; an empty store yields `(0.0, 0.0)`; and
with fewer than 60 (and more than 0) records the two windows of length `n`
overlap (`count < n + n`), overlapping records entering both means. -/
theorem polling_history_change_windows (st : Store) (h : WF st) :
    polling_history_change st =
      (listAvg (st.harris.take (min 30 (count st)))
         - listAvg (lastN (min 30 (count st)) st.harris),
       listAvg (st.trump.take (min 30 (count st)))
         - listAvg (lastN (min 30 (count st)) st.trump))
    ∧ (count st = 0 → polling_history_change st = (0, 0))
    ∧ (0 < count st → count st < 60 →
        count st < min 30 (count st) + min 30 (count st)) := by
  obtain ⟨-, -, -, hh, ht⟩ := h
  have hcount : ∀ x : Store, count x = x.month.length := fun _ => rfl
  have hmin : min st.harris.length st.trump.length = count st := by
    rw [hh, ht, hcount, min_self]
  have hmain : polling_history_change st =
      (listAvg (st.harris.take (min 30 (count st)))
         - listAvg (lastN (min 30 (count st)) st.harris),
       listAvg (st.trump.take (min 30 (count st)))
         - listAvg (lastN (min 30 (count st)) st.trump)) := by
    rw [phc_eq_simplified]
    simp only [polling_history_change_simplified]
    rw [hmin]
    by_cases h0 : min 30 (count st) = 0
    · have hc0 : count st = 0 := by omega
      have hhe : st.harris = [] := by
        rw [← List.length_eq_zero, hh, ← hcount, hc0]
      have hte : st.trump = [] := by
        rw [← List.length_eq_zero, ht, ← hcount, hc0]
      simp [h0, hhe, hte, listAvg, lastN]
    · rw [if_neg h0]
      have hleH : min 30 (count st) ≤ st.harris.length := by
        rw [hh, ← hcount]; omega
      have hleT : min 30 (count st) ≤ st.trump.length := by
        rw [ht, ← hcount]; omega
      rw [listAvg_take _ _ h0 hleH, listAvg_lastN _ _ h0 hleH,
          listAvg_take _ _ h0 hleT, listAvg_lastN _ _ h0 hleT]
  refine ⟨hmain, ?_, ?_⟩
  · intro hc0
    rw [hmain, hc0]
    simp [listAvg, lastN]
  · intro h1 h2
    omega

/-- Witness for C3 at the end-to-end store of three records. -/
theorem polling_history_change_windows_witness :
    polling_history_change demoStore =
      (listAvg (demoStore.harris.take (min 30 (count demoStore)))
         - listAvg (lastN (min 30 (count demoStore)) demoStore.harris),
       listAvg (demoStore.trump.take (min 30 (count demoStore)))
         - listAvg (lastN (min 30 (count demoStore)) demoStore.trump))
    ∧ (count demoStore = 0 → polling_history_change demoStore = (0, 0))
    ∧ (0 < count demoStore → count demoStore < 60 →
        count demoStore < min 30 (count demoStore) + min 30 (count demoStore)) :=
  polling_history_change_windows demoStore (by decide)

theorem collectLikely_eq (ss : List String) (hs ts : List ℚ)
    (h1 : ss.length = hs.length) (h2 : ss.length = ts.length) :
    collectLikely ss hs ts =
      (((ss.zip (hs.zip ts)).filter (fun p => pyLower p.1 = "likely voters")).map
         (fun p => p.2.1),
       ((ss.zip (hs.zip ts)).filter (fun p => pyLower p.1 = "likely voters")).map
         (fun p => p.2.2)) := by
  induction ss generalizing hs ts with
  | nil => simp [collectLikely]
  | cons s ss ih =>
    cases hs with
    | nil => simp at h1
    | cons h hs =>
      cases ts with
      | nil => simp at h2
      | cons t ts =>
        have ih' := ih hs ts (by simpa using h1) (by simpa using h2)
        by_cases hp : pyLower s = "likely voters" <;>
          simp [collectLikely, hp, ih']

/-- C4: on every built store, `likely_voter_polling_average` returns the
pair of arithmetic means of the two result columns restricted to records
whose stored sample-type label equals `likely voters` case-insensitively,
with `0.0` for a candidate whose filtered subset is empty (the division is
guarded, so it never divides by zero). -/
theorem likely_voter_polling_average_correct (st : Store) (h : WF st) :
    likely_voter_polling_average st = spec_likely st := by
  obtain ⟨-, -, hst, hh, ht⟩ := h
  unfold likely_voter_polling_average spec_likely
  rw [collectLikely_eq st.sampleType st.harris st.trump (by rw [hst, hh])
      (by rw [hst, ht])]

/-- Witness for C4 at the end-to-end store of three records. -/
theorem likely_voter_polling_average_correct_witness :
    likely_voter_polling_average demoStore = spec_likely demoStore :=
  likely_voter_polling_average_correct demoStore (by decide)

/-- How a successful loop iteration can look: the row was skipped for
having fewer than five fields, or all its fields parsed and one value was
appended to each of the six columns. -/
theorem processRow_ok (st st' : Store) (row : String)
    (hok : processRow st row = .ok st') :
    st' = st ∨
    (¬ (pyFields row).length < 5 ∧
     ∃ d sz ty hv tv,
       pyInt ((pyFields row).getD 1 "") = some d ∧
       sampleOf (pySplitWS ((pyFields row).getD 2 "")) = .ok (sz, ty) ∧
       pyFloat ((pyFields row).getD 3 "") = some hv ∧
       pyFloat ((pyFields row).getD 4 "") = some tv ∧
       st' = { month := st.month ++ [(pyFields row).getD 0 ""]
             , date := st.date ++ [d]
             , sample := st.sample ++ [sz]
             , sampleType := st.sampleType ++
                 [if ty = "LV" then "likely voters" else "registered voters"]
             , harris := st.harris ++ [to_fraction hv]
             , trump := st.trump ++ [to_fraction tv] }) := by
  unfold processRow at hok
  by_cases hlen : (pyFields row).length < 5
  · rw [if_pos hlen] at hok
    exact Or.inl (Except.ok.inj hok).symm
  · rw [if_neg hlen] at hok
    refine Or.inr ⟨hlen, ?_⟩
    cases hint : pyInt ((pyFields row).getD 1 "") with
    | none => rw [hint] at hok; cases hok
    | some d =>
      rw [hint] at hok
      cases hsmp : sampleOf (pySplitWS ((pyFields row).getD 2 "")) with
      | error e => rw [hsmp] at hok; cases hok
      | ok p =>
        obtain ⟨sz, ty⟩ := p
        rw [hsmp] at hok
        cases hhv : pyFloat ((pyFields row).getD 3 "") with
        | none => rw [hhv] at hok; cases hok
        | some hv =>
          rw [hhv] at hok
          cases htv : pyFloat ((pyFields row).getD 4 "") with
          | none => rw [htv] at hok; cases hok
          | some tv =>
            rw [htv] at hok
            exact ⟨d, sz, ty, hv, tv, rfl, rfl, rfl, rfl,
              (Except.ok.inj hok).symm⟩

/-- Any property of the store preserved by successful loop iterations on
rows satisfying `R` is an invariant of the folding loop. -/
theorem foldl_processRow_inv (P : Store → Prop) (R : String → Prop)
    (hstep : ∀ st row st', R row → processRow st row = .ok st' → P st → P st') :
    ∀ (rows : List String) (st st' : Store), (∀ r ∈ rows, R r) →
      rows.foldlM processRow st = .ok st' → P st → P st' := by
  intro rows
  induction rows with
  | nil =>
    intro st st' _ hfold hP
    rw [List.foldlM_nil] at hfold
    cases hfold
    exact hP
  | cons r rs ih =>
    intro st st' hR hfold hP
    rw [List.foldlM_cons] at hfold
    cases hpr : processRow st r with
    | error e =>
      rw [hpr] at hfold
      exact absurd hfold (by intro hc; cases hc)
    | ok st1 =>
      rw [hpr] at hfold
      replace hfold : rs.foldlM processRow st1 = .ok st' := hfold
      exact ih st1 st' (fun x hx => hR x (List.mem_cons_of_mem r hx)) hfold
        (hstep st r st1 (hR r (List.mem_cons_self r rs)) hpr hP)

/-- A successful loop iteration preserves equality of the column lengths. -/
theorem processRow_WF (st st' : Store) (row : String)
    (hok : processRow st row = .ok st') (h : WF st) : WF st' := by
  rcases processRow_ok st st' row hok with rfl | ⟨-, d, sz, ty, hv, tv, -, -, -, -, rfl⟩
  · exact h
  · obtain ⟨h1, h2, h3, h4, h5⟩ := h
    simp [WF, List.length_append, h1, h2, h3, h4, h5]

/-- C7: after `build_data_dict` completes successfully, the six column
lists of the store have equal length. -/
theorem build_columns_equal_length (raw : List String) (st : Store)
    (hb : build_data_dict raw = .ok st) : WF st :=
  foldl_processRow_inv WF (fun _ => True)
    (fun st0 row st1 _ hok h => processRow_WF st0 st1 row hok h)
    (raw.drop 1) emptyStore st (fun _ _ => trivial) hb
    ⟨rfl, rfl, rfl, rfl, rfl⟩

/-- Witness for C7 on a concrete one-record dataset. -/
theorem build_columns_equal_length_witness : WF demo2Store :=
  build_columns_equal_length demo2Raw demo2Store (by decide)

/-- C5, counterexample: the build accepts a row whose Harris value is `-5`;
the stored fraction is `-5`, which does not lie in `[0, 1]`. -/
theorem fraction_range_counterexample :
    build_data_dict cexRaw5 = .ok cexStore5
    ∧ (-5 : ℚ) ∈ cexStore5.harris
    ∧ ¬ (0 ≤ (-5 : ℚ) ∧ (-5 : ℚ) ≤ 1) :=
  ⟨by decide, by decide, by decide⟩

theorem to_fraction_bounds (v : ℚ) (h0 : 0 ≤ v) (h1 : v ≤ 100) :
    0 ≤ to_fraction v ∧ to_fraction v ≤ 1 := by
  unfold to_fraction
  by_cases h : v > 1
  · rw [if_pos h]
    constructor
    · positivity
    · linarith
  · rw [if_neg h]
    exact ⟨h0, by linarith [not_lt.mp h]⟩

/-- A successful loop iteration on a row whose result fields denote values
in `[0, 100]` keeps every stored fraction in `[0, 1]`. -/
theorem processRow_resBounds (st st' : Store) (row : String)
    (hrow : rowResBounded row = true)
    (hok : processRow st row = .ok st')
    (hP : (∀ x ∈ st.harris, 0 ≤ x ∧ x ≤ 1) ∧ (∀ x ∈ st.trump, 0 ≤ x ∧ x ≤ 1)) :
    (∀ x ∈ st'.harris, 0 ≤ x ∧ x ≤ 1) ∧ (∀ x ∈ st'.trump, 0 ≤ x ∧ x ≤ 1) := by
  rcases processRow_ok st st' row hok with rfl | ⟨-, d, sz, ty, hv, tv, -, -, hhv, htv, rfl⟩
  · exact hP
  · unfold rowResBounded at hrow
    rw [hhv, htv] at hrow
    simp only [Bool.and_eq_true, decide_eq_true_eq] at hrow
    constructor
    · intro x hx
      rcases List.mem_append.mp hx with hx | hx
      · exact hP.1 x hx
      · rw [List.mem_singleton.mp hx]
        exact to_fraction_bounds hv hrow.1.1 hrow.1.2
    · intro x hx
      rcases List.mem_append.mp hx with hx | hx
      · exact hP.2 x hx
      · rw [List.mem_singleton.mp hx]
        exact to_fraction_bounds tv hrow.2.1 hrow.2.2

/-- C5, amended: values above `1.0` are divided by `100` and values at most
`1.0` stored unchanged, exactly as claimed; the stored fractions of a
successfully built store lie in `[0, 1]` provided every row's result fields
denote values in `[0, 100]` (without that proviso the invariant fails, see
the counterexample). -/
theorem fraction_range_amended (raw : List String) (st : Store)
    (hb : build_data_dict raw = .ok st)
    (hrows : ∀ r ∈ raw, rowResBounded r = true) :
    ((∀ v : ℚ, 1 < v → to_fraction v = v / 100)
      ∧ (∀ v : ℚ, v ≤ 1 → to_fraction v = v))
    ∧ (∀ x ∈ st.harris, 0 ≤ x ∧ x ≤ 1)
    ∧ (∀ x ∈ st.trump, 0 ≤ x ∧ x ≤ 1) := by
  refine ⟨⟨fun v hv => if_pos hv, fun v hv => if_neg (not_lt.mpr hv)⟩, ?_⟩
  exact foldl_processRow_inv
    (fun s => (∀ x ∈ s.harris, 0 ≤ x ∧ x ≤ 1) ∧ (∀ x ∈ s.trump, 0 ≤ x ∧ x ≤ 1))
    (fun r => rowResBounded r = true)
    (fun st0 row st1 hR hok hP => processRow_resBounds st0 st1 row hR hok hP)
    (raw.drop 1) emptyStore st
    (fun r hr => hrows r (List.drop_subset 1 raw hr)) hb
    ⟨fun x hx => absurd hx (List.not_mem_nil x), fun x hx => absurd hx (List.not_mem_nil x)⟩

/-- Witness for C5's amended invariant on a concrete one-record dataset. -/
theorem fraction_range_amended_witness :
    ((∀ v : ℚ, 1 < v → to_fraction v = v / 100)
      ∧ (∀ v : ℚ, v ≤ 1 → to_fraction v = v))
    ∧ (∀ x ∈ demo2Store.harris, 0 ≤ x ∧ x ≤ 1)
    ∧ (∀ x ∈ demo2Store.trump, 0 ≤ x ∧ x ≤ 1) :=
  fraction_range_amended demo2Raw demo2Store (by decide) (by decide)

/-- C6, counterexample: the build accepts a row whose sample-size token is
`-10`; the stored sample size is negative. -/
theorem sample_size_nonneg_counterexample :
    build_data_dict cexRaw6 = .ok cexStore6
    ∧ (-10 : Int) ∈ cexStore6.sample
    ∧ ¬ (0 ≤ (-10 : Int)) :=
  ⟨by decide, by decide, by decide⟩

theorem pyInt_nonneg (s : String) (n : Int)
    (hm : tokNoMinus s = true) (hp : pyInt s = some n) : 0 ≤ n := by
  unfold tokNoMinus at hm
  unfold pyInt pyIntChars at hp
  cases hs : pyStrip s.data with
  | nil => rw [hs] at hp; cases hp
  | cons c rest =>
    rw [hs] at hp hm
    dsimp only at hp hm
    by_cases hc : c = '-'
    · subst hc; simp at hm
    · rw [if_neg hc] at hp
      by_cases hc2 : c = '+'
      · rw [if_pos hc2] at hp
        split at hp
        · cases hp; exact Int.ofNat_nonneg _
        · cases hp
      · rw [if_neg hc2] at hp
        split at hp
        · cases hp; exact Int.ofNat_nonneg _
        · cases hp

/-- The sample size accepted by the sample-descriptor branch always comes
from parsing the first whitespace token of field 2. -/
theorem sampleOf_ok_int (parts : List String) (sz : Int) (ty : String)
    (h : sampleOf parts = .ok (sz, ty)) :
    pyInt (parts.getD 0 "") = some sz := by
  unfold sampleOf at h
  by_cases hlen : parts.length = 2
  · rw [if_pos hlen] at h
    cases hint : pyInt (parts.getD 0 "") with
    | none => rw [hint] at h; cases h
    | some sz' =>
      rw [hint] at h
      cases h
      rfl
  · rw [if_neg hlen] at h
    cases parts with
    | nil => cases h
    | cons p ps =>
      dsimp only at h
      cases hint : pyInt p with
      | none => rw [hint] at h; cases h
      | some sz' =>
        rw [hint] at h
        cases h
        exact hint

/-- A successful loop iteration on a row whose sample-size token carries no
minus sign keeps every stored sample size non-negative. -/
theorem processRow_sampleNonneg (st st' : Store) (row : String)
    (hrow : rowSampleNoMinus row = true)
    (hok : processRow st row = .ok st')
    (hP : ∀ x ∈ st.sample, 0 ≤ x) :
    ∀ x ∈ st'.sample, 0 ≤ x := by
  rcases processRow_ok st st' row hok with rfl | ⟨hlen, d, sz, ty, hv, tv, -, hsmp, -, -, rfl⟩
  · exact hP
  · unfold rowSampleNoMinus at hrow
    rw [if_neg hlen] at hrow
    intro x hx
    rcases List.mem_append.mp hx with hx | hx
    · exact hP x hx
    · rw [List.mem_singleton.mp hx]
      exact pyInt_nonneg _ sz hrow (sampleOf_ok_int _ sz ty hsmp)

/-- C6, amended: every stored sample size is an integer, and it is
non-negative provided no row's sample-size token begins with a minus sign
(without that proviso it can be negative, see the counterexample). -/
theorem sample_size_nonneg_amended (raw : List String) (st : Store)
    (hb : build_data_dict raw = .ok st)
    (hrows : ∀ r ∈ raw, rowSampleNoMinus r = true) :
    ∀ x ∈ st.sample, 0 ≤ x :=
  foldl_processRow_inv (fun s => ∀ x ∈ s.sample, 0 ≤ x)
    (fun r => rowSampleNoMinus r = true)
    (fun st0 row st1 hR hok hP => processRow_sampleNonneg st0 st1 row hR hok hP)
    (raw.drop 1) emptyStore st
    (fun r hr => hrows r (List.drop_subset 1 raw hr)) hb
    (fun x hx => absurd hx (List.not_mem_nil x))

/-- Witness for C6's amended invariant on a concrete one-record dataset. -/
theorem sample_size_nonneg_amended_witness :
    (1000 : Int) ∈ demo2Store.sample ∧ (0 : Int) ≤ 1000 :=
  ⟨by decide,
   sample_size_nonneg_amended demo2Raw demo2Store (by decide) (by decide) 1000 (by decide)⟩

/-- A sample-descriptor field whose first whitespace token does not parse
as an integer makes the descriptor branch raise (either the `ValueError`
of `int()` or, for an empty token list, the `IndexError`). -/
theorem sampleOf_err (parts : List String)
    (h : pyInt (parts.getD 0 "") = none) :
    ∃ e, sampleOf parts = .error e := by
  unfold sampleOf
  by_cases hlen : parts.length = 2
  · rw [if_pos hlen, h]
    exact ⟨_, rfl⟩
  · rw [if_neg hlen]
    cases parts with
    | nil => exact ⟨_, rfl⟩
    | cons p ps =>
      dsimp only
      rw [show ((p :: ps).getD 0 "") = p from rfl] at h
      rw [h]
      exact ⟨_, rfl⟩

/-- A row on which every loop iteration raises makes the whole fold raise,
wherever the row sits in the list: fail-fast with no per-row recovery. -/
theorem foldlM_fatal (row : String)
    (hf : ∀ st : Store, ∃ e, processRow st row = .error e) :
    ∀ (pre post : List String) (st : Store),
      ∃ e, (pre ++ row :: post).foldlM processRow st = .error e := by
  intro pre
  induction pre with
  | nil =>
    intro post st
    obtain ⟨e, he⟩ := hf st
    refine ⟨e, ?_⟩
    rw [List.nil_append, List.foldlM_cons, he]
    rfl
  | cons p pre ih =>
    intro post st
    rw [List.cons_append, List.foldlM_cons]
    cases hpr : processRow st p with
    | error e => exact ⟨e, rfl⟩
    | ok st1 =>
      obtain ⟨e, he⟩ := ih post st1
      exact ⟨e, he⟩

/-- C8: (i) the row at ordinal position 0 is always skipped, whatever its
content; (ii) a later row with fewer than five trimmed comma-separated
fields is silently skipped, leaving the store untouched; (iii) a row that
passes the field-count check but whose integer or float field fails to
parse makes the loop iteration raise; and (iv) a row on which the iteration
raises aborts the entire build with an error, wherever it occurs after the
header — fail-fast, no per-row recovery. -/
theorem build_error_policy :
    (∀ (h1 h2 : String) (rest : List String),
        build_data_dict (h1 :: rest) = build_data_dict (h2 :: rest))
    ∧ (∀ (st : Store) (row : String), (pyFields row).length < 5 →
        processRow st row = .ok st)
    ∧ (∀ (row : String) (st : Store), 5 ≤ (pyFields row).length →
        (pyInt ((pyFields row).getD 1 "") = none
          ∨ pyInt ((pySplitWS ((pyFields row).getD 2 "")).getD 0 "") = none
          ∨ pyFloat ((pyFields row).getD 3 "") = none
          ∨ pyFloat ((pyFields row).getD 4 "") = none) →
        ∃ e, processRow st row = .error e)
    ∧ (∀ (hdr : String) (pre post : List String) (row : String),
        (∀ st : Store, ∃ e, processRow st row = .error e) →
        ∃ e, build_data_dict (hdr :: (pre ++ row :: post)) = .error e) := by
  refine ⟨fun _ _ _ => rfl, ?_, ?_, ?_⟩
  · intro st row hlen
    unfold processRow
    rw [if_pos hlen]
  · intro row st hlen hbad
    unfold processRow
    rw [if_neg (not_lt.mpr hlen)]
    rcases hbad with hd | hsmp | hf3 | hf4
    · rw [hd]
      exact ⟨_, rfl⟩
    · cases hint : pyInt ((pyFields row).getD 1 "") with
      | none => exact ⟨_, rfl⟩
      | some d =>
        obtain ⟨e, he⟩ := sampleOf_err (pySplitWS ((pyFields row).getD 2 "")) hsmp
        rw [he]
        exact ⟨e, rfl⟩
    · cases hint : pyInt ((pyFields row).getD 1 "") with
      | none => exact ⟨_, rfl⟩
      | some d =>
        cases hsmp : sampleOf (pySplitWS ((pyFields row).getD 2 "")) with
        | error e => exact ⟨e, rfl⟩
        | ok p =>
          obtain ⟨sz, ty⟩ := p
          rw [hf3]
          exact ⟨_, rfl⟩
    · cases hint : pyInt ((pyFields row).getD 1 "") with
      | none => exact ⟨_, rfl⟩
      | some d =>
        cases hsmp : sampleOf (pySplitWS ((pyFields row).getD 2 "")) with
        | error e => exact ⟨e, rfl⟩
        | ok p =>
          obtain ⟨sz, ty⟩ := p
          cases hf3 : pyFloat ((pyFields row).getD 3 "") with
          | none => exact ⟨_, rfl⟩
          | some hv =>
            rw [hf4]
            exact ⟨_, rfl⟩
  · intro hdr pre post row hf
    exact foldlM_fatal row hf pre post emptyStore

/-- Witness for C8: a two-field row is skipped leaving the store as it was,
and a dataset whose second row has a non-numeric date field aborts with an
error. -/
theorem build_error_policy_witness :
    processRow emptyStore "a,b" = .ok emptyStore
    ∧ (∃ e, build_data_dict ["hdr", "Oct,x,1000 LV,55,45"] = .error e) := by
  refine ⟨build_error_policy.2.1 emptyStore "a,b" (by decide), ?_⟩
  exact build_error_policy.2.2.2 "hdr" [] [] "Oct,x,1000 LV,55,45"
    (fun st => build_error_policy.2.2.1 "Oct,x,1000 LV,55,45" st (by decide)
      (Or.inl (by decide)))

/-- C9, counterexample: the logical value `0.01` fed as the fractional
string `"0.01"` is stored as `1/100`, but fed as the equivalent percentage
string `"1"` it is stored as `1` (the value `1.0` is not above `1.0`, so it
is not divided by `100`): the two notations do not yield the same stored
fraction. -/
theorem round_trip_counterexample :
    (pyFloat "0.01").map to_fraction = some ((1 : ℚ)/100)
    ∧ (pyFloat "1").map to_fraction = some 1
    ∧ ((1 : ℚ)/100) ≠ 1 := by
  refine ⟨?_, by decide, by norm_num⟩
  have h : pyFloat "0.01" =
      some ((natOfDigits ['0'] : ℚ) + (natOfDigits ['0', '1'] : ℚ) / ((10 : ℚ) ^ (2 : ℕ))) := rfl
  have e1 : natOfDigits ['0'] = 0 := by decide
  have e2 : natOfDigits ['0', '1'] = 1 := by decide
  rw [h, e1, e2]
  norm_num [to_fraction]

/-- C9, amended: for every logical result value `v` with `0.01 < v ≤ 1`,
feeding it as an already-fractional string parsing to `v` and as the
equivalent percentage string parsing to `100·v` yields the identical stored
fraction `v` (for values at or below `0.01` the percentage notation is not
above `1.0` and is stored unnormalized, see the counterexample). -/
theorem round_trip_amended (v : ℚ) (s1 s2 : String)
    (hv1 : v ≤ 1) (hv2 : 1 < 100 * v)
    (h1 : pyFloat s1 = some v) (h2 : pyFloat s2 = some (100 * v)) :
    (pyFloat s1).map to_fraction = some v
    ∧ (pyFloat s2).map to_fraction = some v := by
  rw [h1, h2]
  unfold to_fraction
  constructor
  · rw [Option.map_some']
    rw [if_neg (not_lt.mpr hv1)]
  · rw [Option.map_some']
    rw [if_pos hv2]
    rw [mul_comm, mul_div_assoc]
    norm_num

/-- Witness for C9's amended round-trip at `v = 1`, strings `"1"`/`"100"`. -/
theorem round_trip_amended_witness :
    (pyFloat "1").map to_fraction = some 1
    ∧ (pyFloat "100").map to_fraction = some 1 :=
  round_trip_amended 1 "1" "100" le_rfl (by rw [mul_one]; decide)
    (by decide) (by rw [mul_one]; decide)

end PollReader
